import Mathlib

/-!
Verification of the usage-after-point analysis in
`src/examples/supplementary/unnecessary_conversion_for_trait/src/usage_check.rs`.

The Rust code is shallowly embedded:

* `Span` models `rustc_span::Span` restricted to the data the code consults:
  a start offset `lo`, an end offset `hi` and an expansion context `ctxt`.
  The comparison `stmt.span > call_span` in the source uses the `Ord`
  instance of `rustc_span::Span`, which compares the triples
  `(lo, hi, ctxt)` lexicographically; `Span.gt` reproduces that order.
* `Expr`, `Stmt`, `BodyValue` model the HIR nodes reachable by the
  visitor, as a closed set of tagged variants: path expressions carrying
  their resolution (`Res`), literals, calls, method calls, binary
  operators, if-expressions, blocks, closures (whose nested body is
  visited because the visitor sets `NestedFilter = OnlyBodies`), and
  statements (`let` with optional initializer, expression statements,
  trailing-semicolon statements, and nested items, which `OnlyBodies`
  does not descend into).
* `UsageVisitor` and the `visit_*` functions embed the visitor of
  `usage_check.rs`: `visit_expr` first early-returns when `found` is
  already set, then compares the node's own `hir_id` with the target,
  and otherwise recurses into the children exactly as
  `intravisit::walk_expr` does.  HIR ids are modelled as `Nat`.
* `is_used_later` embeds the function of the same name.  The calls
  `cx.tcx.hir().enclosing_body_owner(hir_id)` and
  `cx.tcx.hir().body(body_id)` go to the surrounding compiler context;
  they are modelled as the two capabilities of `LateContext`.  Both can
  fail (rustc aborts inside `enclosing_body_owner` when no enclosing
  body exists, and the source unwraps the result of `body`), so the
  embedded `is_used_later` returns `Option Bool`, `none` standing for
  the panic that the Rust code raises on those paths.
-/

namespace UsageCheck

/-- Source span: start offset, end offset and expansion context, the
fields `rustc_span::Span` exposes through `SpanData`. -/
structure Span where
  lo : Nat
  hi : Nat
  ctxt : Nat
deriving DecidableEq, Repr

/-- The strict order `a > b` on spans used by `stmt.span > call_span` in
the source: `rustc_span`'s `Ord for Span` compares `(lo, hi, ctxt)`
lexicographically. -/
def Span.gt (a b : Span) : Bool :=
  decide (b.lo < a.lo) ||
    (decide (a.lo = b.lo) &&
      (decide (b.hi < a.hi) ||
        (decide (a.hi = b.hi) && decide (b.ctxt < a.ctxt))))

/-- Resolution of a path expression: either a reference to a local
binding (carrying the binding's HIR id) or anything else. -/
inductive Res where
  | local (id : Nat) : Res
  | other : Res
deriving DecidableEq, Repr

mutual

/-- An HIR expression: its own HIR id, its span and its kind. -/
inductive Expr where
  | mk (hir_id : Nat) (span : Span) (kind : ExprKind) : Expr

/-- The kinds of expressions the walker distinguishes. -/
inductive ExprKind where
  | path (res : Res) : ExprKind
  | lit : ExprKind
  | call (f : Expr) (args : ExprList) : ExprKind
  | methodCall (receiver : Expr) (args : ExprList) : ExprKind
  | binary (lhs : Expr) (rhs : Expr) : ExprKind
  | ifExpr (cond : Expr) (thenBranch : Expr) (elseBranch : OptionExpr) : ExprKind
  | block (b : BodyValue) : ExprKind
  | closure (body : BodyValue) : ExprKind

/-- A list of expressions (call arguments). -/
inductive ExprList where
  | nil : ExprList
  | cons (e : Expr) (rest : ExprList) : ExprList

/-- An optional expression (else branch, let initializer, trailing
expression of a block). -/
inductive OptionExpr where
  | none : OptionExpr
  | some (e : Expr) : OptionExpr

/-- An HIR statement: its own HIR id, its span and its kind. -/
inductive Stmt where
  | mk (hir_id : Nat) (span : Span) (kind : StmtKind) : Stmt

/-- The kinds of statements the walker distinguishes.  `item` is a
nested item, which `NestedFilter = OnlyBodies` does not descend into. -/
inductive StmtKind where
  | letStmt (init : OptionExpr) : StmtKind
  | exprStmt (e : Expr) : StmtKind
  | semi (e : Expr) : StmtKind
  | item : StmtKind

/-- A list of statements. -/
inductive StmtList where
  | nil : StmtList
  | cons (s : Stmt) (rest : StmtList) : StmtList

/-- The shape the source reads from `body.value`: the statements of the
block plus its optional trailing expression. -/
inductive BodyValue where
  | mk (stmts : StmtList) (expr : OptionExpr) : BodyValue

end

/-- Span of an expression. -/
def Expr.span : Expr → Span
  | .mk _ sp _ => sp

/-- Own HIR id of an expression. -/
def Expr.hirId : Expr → Nat
  | .mk i _ _ => i

/-- Kind of an expression. -/
def Expr.kind : Expr → ExprKind
  | .mk _ _ k => k

/-- Span of a statement. -/
def Stmt.span : Stmt → Span
  | .mk _ sp _ => sp

/-- Kind of a statement. -/
def Stmt.kind : Stmt → StmtKind
  | .mk _ _ k => k

/-- Statements of a body value. -/
def BodyValue.stmts : BodyValue → StmtList
  | .mk ss _ => ss

/-- Trailing expression of a body value. -/
def BodyValue.expr : BodyValue → OptionExpr
  | .mk _ e => e

/-- A function body, as handed back by `cx.tcx.hir().body(..)`: the
source only reads its `value`. -/
structure Body where
  value : BodyValue

/-- The visitor of `usage_check.rs`: the target HIR id and the mutable
`found` flag. -/
structure UsageVisitor where
  hir_id : Nat
  found : Bool
deriving DecidableEq, Repr

mutual

/-- `UsageVisitor::visit_expr`: early-return when `found` is set, set
`found` when the node's own HIR id equals the target, otherwise let
`intravisit::walk_expr` recurse uniformly into the children. -/
def visit_expr (v : UsageVisitor) : Expr → UsageVisitor
  | .mk hid _ k =>
    if v.found then v
    else if hid = v.hir_id then { v with found := true }
    else walk_expr_kind v k

/-- `intravisit::walk_expr`, specialised to the embedded kinds: visit
every child expression; for closures, `NestedFilter = OnlyBodies` makes
the nested body part of the traversal. -/
def walk_expr_kind (v : UsageVisitor) : ExprKind → UsageVisitor
  | .path _ => v
  | .lit => v
  | .call f args => visit_expr_list (visit_expr v f) args
  | .methodCall r args => visit_expr_list (visit_expr v r) args
  | .binary l r => visit_expr (visit_expr v l) r
  | .ifExpr c t e => visit_option_expr (visit_expr (visit_expr v c) t) e
  | .block b => visit_body_value v b
  | .closure b => visit_body_value v b

/-- Visit a list of child expressions in order. -/
def visit_expr_list (v : UsageVisitor) : ExprList → UsageVisitor
  | .nil => v
  | .cons e rest => visit_expr_list (visit_expr v e) rest

/-- Visit an optional child expression. -/
def visit_option_expr (v : UsageVisitor) : OptionExpr → UsageVisitor
  | .none => v
  | .some e => visit_expr v e

/-- `Visitor::visit_stmt` (default implementation `walk_stmt`): visit
the expressions of the statement; nested items are skipped because
`OnlyBodies` does not visit nested items. -/
def visit_stmt (v : UsageVisitor) : Stmt → UsageVisitor
  | .mk _ _ k => visit_stmt_kind v k

/-- Dispatch of `walk_stmt` over the statement kinds. -/
def visit_stmt_kind (v : UsageVisitor) : StmtKind → UsageVisitor
  | .letStmt init => visit_option_expr v init
  | .exprStmt e => visit_expr v e
  | .semi e => visit_expr v e
  | .item => v

/-- Visit a list of statements in order. -/
def visit_stmt_list (v : UsageVisitor) : StmtList → UsageVisitor
  | .nil => v
  | .cons s rest => visit_stmt_list (visit_stmt v s) rest

/-- Visit a nested body: its statements, then its trailing
expression. -/
def visit_body_value (v : UsageVisitor) : BodyValue → UsageVisitor
  | .mk ss tail => visit_option_expr (visit_stmt_list v ss) tail

end

/-- `usage_found_in` instantiated at a statement: run a fresh visitor
over the node and report its `found` flag. -/
def usage_found_in_stmt (hir_id : Nat) (s : Stmt) : Bool :=
  (visit_stmt ⟨hir_id, false⟩ s).found

/-- `usage_found_in` instantiated at an expression. -/
def usage_found_in_expr (hir_id : Nat) (e : Expr) : Bool :=
  (visit_expr ⟨hir_id, false⟩ e).found

/-- The statement loop of `is_used_later`: traverse the statements whose
span is strictly greater than `call_span` with the single reused
visitor, returning `true` early as soon as `found` is set.  The first
component records whether the early `return true` fired; the second is
the visitor state the loop ends with. -/
def is_used_later_loop (call_span : Span) (v : UsageVisitor) :
    StmtList → Bool × UsageVisitor
  | .nil => (false, v)
  | .cons s rest =>
    if Span.gt s.span call_span then
      let v' := visit_stmt v s
      if v'.found then (true, v')
      else is_used_later_loop call_span v' rest
    else is_used_later_loop call_span v rest

/-- The body of `is_used_later` once the enclosing body has been
resolved: run the statement loop, then, when no statement matched,
examine the trailing expression when its span is strictly greater than
`call_span`. -/
def is_used_later_of_body (body : Body) (hir_id : Nat) (call_span : Span) :
    Bool :=
  match is_used_later_loop call_span ⟨hir_id, false⟩ body.value.stmts with
  | (true, _) => true
  | (false, v1) =>
    match body.value.expr with
    | .some e =>
      if Span.gt e.span call_span then (visit_expr v1 e).found else false
    | .none => false

/-- The capabilities `is_used_later` takes from the compiler context:
resolving a HIR id to the id of its enclosing body owner, and looking a
body up by that id.  `none` in either capability is the failure case
(no enclosing body, or no body for the id). -/
structure LateContext where
  enclosing_body_owner : Nat → Option Nat
  body : Nat → Option Body

/-- `is_used_later`.  `none` models a panic: rustc's
`enclosing_body_owner` aborts when no enclosing body exists, and the
source calls `.unwrap()` on the result of the body lookup. -/
def is_used_later (cx : LateContext) (hir_id : Nat) (call_span : Span) :
    Option Bool :=
  match cx.enclosing_body_owner hir_id with
  | Option.none => Option.none
  | Option.some body_id =>
    match cx.body body_id with
    | Option.none => Option.none
    | Option.some body => Option.some (is_used_later_of_body body hir_id call_span)

mutual

/-- Full (non-short-circuiting) traversal: does the subtree rooted at
this expression contain a node whose own HIR id equals `t`?  This is
the criterion `visit_expr` actually tests, written as a pure predicate
that always visits every child. -/
def exprContains (t : Nat) : Expr → Bool
  | .mk hid _ k => decide (hid = t) || kindContains t k

/-- `exprContains` over expression kinds. -/
def kindContains (t : Nat) : ExprKind → Bool
  | .path _ => false
  | .lit => false
  | .call f args => exprContains t f || listContains t args
  | .methodCall r args => exprContains t r || listContains t args
  | .binary l r => exprContains t l || exprContains t r
  | .ifExpr c th e => exprContains t c || exprContains t th || optionContains t e
  | .block b => bodyValueContains t b
  | .closure b => bodyValueContains t b

/-- `exprContains` over expression lists. -/
def listContains (t : Nat) : ExprList → Bool
  | .nil => false
  | .cons e rest => exprContains t e || listContains t rest

/-- `exprContains` over optional expressions. -/
def optionContains (t : Nat) : OptionExpr → Bool
  | .none => false
  | .some e => exprContains t e

/-- `exprContains` over statements. -/
def stmtContains (t : Nat) : Stmt → Bool
  | .mk _ _ k => stmtKindContains t k

/-- `exprContains` over statement kinds. -/
def stmtKindContains (t : Nat) : StmtKind → Bool
  | .letStmt init => optionContains t init
  | .exprStmt e => exprContains t e
  | .semi e => exprContains t e
  | .item => false

/-- `exprContains` over statement lists. -/
def stmtListContains (t : Nat) : StmtList → Bool
  | .nil => false
  | .cons s rest => stmtContains t s || stmtListContains t rest

/-- `exprContains` over body values. -/
def bodyValueContains (t : Nat) : BodyValue → Bool
  | .mk ss tail => stmtListContains t ss || optionContains t tail

end

mutual

/-- The match rule as the specification words it ("a node matches iff
it is a reference to a binding whose resolved identity equals the
target identity"): does the subtree contain a path expression whose
resolution is `Res.local t`?  Written from the spec, to be compared
with the criterion the source implements. -/
def specMatchExpr (t : Nat) : Expr → Bool
  | .mk _ _ k => specMatchKind t k

/-- `specMatchExpr` over expression kinds. -/
def specMatchKind (t : Nat) : ExprKind → Bool
  | .path (.local i) => decide (i = t)
  | .path .other => false
  | .lit => false
  | .call f args => specMatchExpr t f || specMatchList t args
  | .methodCall r args => specMatchExpr t r || specMatchList t args
  | .binary l r => specMatchExpr t l || specMatchExpr t r
  | .ifExpr c th e => specMatchExpr t c || specMatchExpr t th || specMatchOption t e
  | .block b => specMatchBodyValue t b
  | .closure b => specMatchBodyValue t b

/-- `specMatchExpr` over expression lists. -/
def specMatchList (t : Nat) : ExprList → Bool
  | .nil => false
  | .cons e rest => specMatchExpr t e || specMatchList t rest

/-- `specMatchExpr` over optional expressions. -/
def specMatchOption (t : Nat) : OptionExpr → Bool
  | .none => false
  | .some e => specMatchExpr t e

/-- `specMatchExpr` over statements. -/
def specMatchStmt (t : Nat) : Stmt → Bool
  | .mk _ _ k => specMatchStmtKind t k

/-- `specMatchExpr` over statement kinds. -/
def specMatchStmtKind (t : Nat) : StmtKind → Bool
  | .letStmt init => specMatchOption t init
  | .exprStmt e => specMatchExpr t e
  | .semi e => specMatchExpr t e
  | .item => false

/-- `specMatchExpr` over statement lists. -/
def specMatchStmtList (t : Nat) : StmtList → Bool
  | .nil => false
  | .cons s rest => specMatchStmt t s || specMatchStmtList t rest

/-- `specMatchExpr` over body values. -/
def specMatchBodyValue (t : Nat) : BodyValue → Bool
  | .mk ss tail => specMatchStmtList t ss || specMatchOption t tail

end

/-- Membership in a statement list. -/
def StmtList.memb (s : Stmt) : StmtList → Prop
  | .nil => False
  | .cons s0 rest => s = s0 ∨ StmtList.memb s rest

/-- Some statement after `call_span` contains the target: the
non-short-circuiting counterpart of the statement loop. -/
def anyStmtAfter (t : Nat) (call_span : Span) : StmtList → Bool
  | .nil => false
  | .cons s rest =>
    (Span.gt s.span call_span && stmtContains t s) || anyStmtAfter t call_span rest

/-- The trailing expression is after `call_span` and contains the
target: the non-short-circuiting counterpart of the tail check. -/
def tailAfter (t : Nat) (call_span : Span) : OptionExpr → Bool
  | .none => false
  | .some e => Span.gt e.span call_span && exprContains t e

/-- `is_used_later_of_body` with early exit disabled: visit every
after-the-call fragment in full and disjoin the results. -/
def is_used_later_full (body : Body) (t : Nat) (call_span : Span) : Bool :=
  anyStmtAfter t call_span body.value.stmts || tailAfter t call_span body.value.expr

/-- `is_used_later` with early exit disabled. -/
def is_used_later_noearly (cx : LateContext) (hir_id : Nat) (call_span : Span) :
    Option Bool :=
  match cx.enclosing_body_owner hir_id with
  | Option.none => Option.none
  | Option.some body_id =>
    match cx.body body_id with
    | Option.none => Option.none
    | Option.some body => Option.some (is_used_later_full body hir_id call_span)

/-- The variant of the query that allocates a fresh visitor per
fragment, the way `usage_found_in` does, instead of reusing one
visitor: statement loop. -/
def fresh_stmts (t : Nat) (call_span : Span) : StmtList → Bool
  | .nil => false
  | .cons s rest =>
    if Span.gt s.span call_span then
      if usage_found_in_stmt t s then true else fresh_stmts t call_span rest
    else fresh_stmts t call_span rest

/-- The fresh-visitor-per-fragment variant of `is_used_later_of_body`. -/
def is_used_later_fresh (body : Body) (t : Nat) (call_span : Span) : Bool :=
  if fresh_stmts t call_span body.value.stmts then true
  else
    match body.value.expr with
    | .some e =>
      if Span.gt e.span call_span then usage_found_in_expr t e else false
    | .none => false

mutual

/-- The visitor computes exactly the full-traversal containment test:
running `visit_expr` from any state leaves the target unchanged and
disjoins `found` with `exprContains`. -/
theorem visit_expr_spec (tid : Nat) (tf : Bool) (e : Expr) :
    visit_expr ⟨tid, tf⟩ e = ⟨tid, tf || exprContains tid e⟩ := by
  match e with
  | .mk hid sp k =>
    cases tf with
    | true => simp [visit_expr, exprContains]
    | false =>
      by_cases h : hid = tid
      · simp [visit_expr, exprContains, h]
      · simp [visit_expr, exprContains, h, walk_expr_kind_spec tid false k]

/-- `walk_expr_kind` computes `kindContains`. -/
theorem walk_expr_kind_spec (tid : Nat) (tf : Bool) (k : ExprKind) :
    walk_expr_kind ⟨tid, tf⟩ k = ⟨tid, tf || kindContains tid k⟩ := by
  match k with
  | .path r => simp [walk_expr_kind, kindContains]
  | .lit => simp [walk_expr_kind, kindContains]
  | .call f args =>
    simp [walk_expr_kind, kindContains, visit_expr_spec tid tf f,
      visit_expr_list_spec tid (tf || exprContains tid f) args, Bool.or_assoc]
  | .methodCall r args =>
    simp [walk_expr_kind, kindContains, visit_expr_spec tid tf r,
      visit_expr_list_spec tid (tf || exprContains tid r) args, Bool.or_assoc]
  | .binary l r =>
    simp [walk_expr_kind, kindContains, visit_expr_spec tid tf l,
      visit_expr_spec tid (tf || exprContains tid l) r, Bool.or_assoc]
  | .ifExpr c th e =>
    simp [walk_expr_kind, kindContains, visit_expr_spec tid tf c,
      visit_expr_spec tid (tf || exprContains tid c) th,
      visit_option_expr_spec tid (tf || (exprContains tid c || exprContains tid th)) e,
      Bool.or_assoc]
  | .block b =>
    simp [walk_expr_kind, kindContains, visit_body_value_spec tid tf b]
  | .closure b =>
    simp [walk_expr_kind, kindContains, visit_body_value_spec tid tf b]

/-- `visit_expr_list` computes `listContains`. -/
theorem visit_expr_list_spec (tid : Nat) (tf : Bool) (l : ExprList) :
    visit_expr_list ⟨tid, tf⟩ l = ⟨tid, tf || listContains tid l⟩ := by
  match l with
  | .nil => simp [visit_expr_list, listContains]
  | .cons e rest =>
    simp [visit_expr_list, listContains, visit_expr_spec tid tf e,
      visit_expr_list_spec tid (tf || exprContains tid e) rest, Bool.or_assoc]

/-- `visit_option_expr` computes `optionContains`. -/
theorem visit_option_expr_spec (tid : Nat) (tf : Bool) (o : OptionExpr) :
    visit_option_expr ⟨tid, tf⟩ o = ⟨tid, tf || optionContains tid o⟩ := by
  match o with
  | .none => simp [visit_option_expr, optionContains]
  | .some e => simp [visit_option_expr, optionContains, visit_expr_spec tid tf e]

/-- `visit_stmt` computes `stmtContains`. -/
theorem visit_stmt_spec (tid : Nat) (tf : Bool) (s : Stmt) :
    visit_stmt ⟨tid, tf⟩ s = ⟨tid, tf || stmtContains tid s⟩ := by
  match s with
  | .mk hid sp k =>
    simp [visit_stmt, stmtContains, visit_stmt_kind_spec tid tf k]

/-- `visit_stmt_kind` computes `stmtKindContains`. -/
theorem visit_stmt_kind_spec (tid : Nat) (tf : Bool) (k : StmtKind) :
    visit_stmt_kind ⟨tid, tf⟩ k = ⟨tid, tf || stmtKindContains tid k⟩ := by
  match k with
  | .letStmt init =>
    simp [visit_stmt_kind, stmtKindContains, visit_option_expr_spec tid tf init]
  | .exprStmt e =>
    simp [visit_stmt_kind, stmtKindContains, visit_expr_spec tid tf e]
  | .semi e =>
    simp [visit_stmt_kind, stmtKindContains, visit_expr_spec tid tf e]
  | .item => simp [visit_stmt_kind, stmtKindContains]

/-- `visit_stmt_list` computes `stmtListContains`. -/
theorem visit_stmt_list_spec (tid : Nat) (tf : Bool) (l : StmtList) :
    visit_stmt_list ⟨tid, tf⟩ l = ⟨tid, tf || stmtListContains tid l⟩ := by
  match l with
  | .nil => simp [visit_stmt_list, stmtListContains]
  | .cons s rest =>
    simp [visit_stmt_list, stmtListContains, visit_stmt_spec tid tf s,
      visit_stmt_list_spec tid (tf || stmtContains tid s) rest, Bool.or_assoc]

/-- `visit_body_value` computes `bodyValueContains`. -/
theorem visit_body_value_spec (tid : Nat) (tf : Bool) (b : BodyValue) :
    visit_body_value ⟨tid, tf⟩ b = ⟨tid, tf || bodyValueContains tid b⟩ := by
  match b with
  | .mk ss tail =>
    simp [visit_body_value, bodyValueContains, visit_stmt_list_spec tid tf ss,
      visit_option_expr_spec tid (tf || stmtListContains tid ss) tail, Bool.or_assoc]

end

/-- The reused-visitor statement loop computes `anyStmtAfter`, and its
early `return true` fires exactly when that disjunction is true. -/
theorem is_used_later_loop_spec (t : Nat) (cs : Span) (l : StmtList) :
    is_used_later_loop cs ⟨t, false⟩ l =
      (anyStmtAfter t cs l, ⟨t, anyStmtAfter t cs l⟩) := by
  match l with
  | .nil => simp [is_used_later_loop, anyStmtAfter]
  | .cons s rest =>
    have ih := is_used_later_loop_spec t cs rest
    simp only [is_used_later_loop, anyStmtAfter]
    by_cases hg : Span.gt s.span cs = true
    · by_cases hc : stmtContains t s = true
      · simp [hg, hc, visit_stmt_spec t false s]
      · simp [hg, hc, visit_stmt_spec t false s, ih]
    · simp [hg, ih]

/-- Early exit over statements does not change the result: the body of
the query equals the full-traversal disjunction. -/
theorem is_used_later_of_body_full (b : Body) (t : Nat) (cs : Span) :
    is_used_later_of_body b t cs = is_used_later_full b t cs := by
  simp only [is_used_later_of_body, is_used_later_full, is_used_later_loop_spec]
  by_cases ha : anyStmtAfter t cs b.value.stmts = true
  · simp [ha]
  · cases hbe : b.value.expr with
    | none => simp [ha, hbe, tailAfter]
    | some e =>
      by_cases hg : Span.gt e.span cs = true
      · simp [ha, hbe, hg, tailAfter, visit_expr_spec t false e]
      · simp [ha, hbe, hg, tailAfter]

/-- The fresh-visitor statement loop also computes `anyStmtAfter`. -/
theorem fresh_stmts_spec (t : Nat) (cs : Span) (l : StmtList) :
    fresh_stmts t cs l = anyStmtAfter t cs l := by
  match l with
  | .nil => simp [fresh_stmts, anyStmtAfter]
  | .cons s rest =>
    have ih := fresh_stmts_spec t cs rest
    simp only [fresh_stmts, anyStmtAfter, usage_found_in_stmt,
      visit_stmt_spec t false s]
    by_cases hg : Span.gt s.span cs = true
    · by_cases hc : stmtContains t s = true
      · simp [hg, hc]
      · simp [hg, hc, ih]
    · simp [hg, ih]

/-- The fresh-visitor variant of the query also equals the
full-traversal disjunction. -/
theorem is_used_later_fresh_full (b : Body) (t : Nat) (cs : Span) :
    is_used_later_fresh b t cs = is_used_later_full b t cs := by
  simp only [is_used_later_fresh, is_used_later_full, fresh_stmts_spec,
    usage_found_in_expr]
  by_cases ha : anyStmtAfter t cs b.value.stmts = true
  · simp [ha]
  · cases hbe : b.value.expr with
    | none => simp [ha, hbe, tailAfter]
    | some e =>
      by_cases hg : Span.gt e.span cs = true
      · simp [ha, hbe, hg, tailAfter, visit_expr_spec t false e]
      · simp [ha, hbe, hg, tailAfter]

/-- A member statement that is after the call span and contains the
target makes `anyStmtAfter` true. -/
theorem anyStmtAfter_of_memb (t : Nat) (cs : Span) (l : StmtList) (s : Stmt)
    (hm : StmtList.memb s l) (hg : Span.gt s.span cs = true)
    (hc : stmtContains t s = true) : anyStmtAfter t cs l = true := by
  match l with
  | .nil => cases hm
  | .cons s0 rest =>
    cases hm with
    | inl h =>
      subst h
      simp [anyStmtAfter, hg, hc]
    | inr h => simp [anyStmtAfter, anyStmtAfter_of_memb t cs rest s h hg hc]

/-- When every member statement containing the target is not after the
call span, `anyStmtAfter` is false. -/
theorem anyStmtAfter_none (t : Nat) (cs : Span) (l : StmtList)
    (h : ∀ s : Stmt, StmtList.memb s l → stmtContains t s = true →
      Span.gt s.span cs = false) :
    anyStmtAfter t cs l = false := by
  match l with
  | .nil => rfl
  | .cons s0 rest =>
    simp only [anyStmtAfter]
    have ih' : anyStmtAfter t cs rest = false :=
      anyStmtAfter_none t cs rest (fun s hm hc => h s (Or.inr hm) hc)
    by_cases hc : stmtContains t s0 = true
    · simp [h s0 (Or.inl rfl) hc, hc, ih']
    · simp [hc, ih']

/-- Helper shared by the after-the-call claims: when the enclosing body
resolves and some member statement has a span strictly greater than the
call span and contains the target, the query returns `true`. -/
theorem used_later_of_after_stmt (cx : LateContext) (t : Nat) (cs : Span)
    (bid : Nat) (b : Body) (s : Stmt)
    (h1 : cx.enclosing_body_owner t = Option.some bid)
    (h2 : cx.body bid = Option.some b)
    (hm : StmtList.memb s b.value.stmts)
    (hg : Span.gt s.span cs = true)
    (hc : stmtContains t s = true) :
    is_used_later cx t cs = Option.some true := by
  simp [is_used_later, h1, h2, is_used_later_of_body_full, is_used_later_full,
    anyStmtAfter_of_memb t cs b.value.stmts s hm hg hc]

/-- A statement whose span is exactly the call span and that contains
the target node (own HIR id 5). -/
def stmtSpanEq : Stmt := .mk 1 ⟨10, 20, 0⟩ (.semi (.mk 5 ⟨10, 20, 0⟩ .lit))

/-- A body consisting of `stmtSpanEq` only. -/
def bodySpanEq : Body := ⟨.mk (.cons stmtSpanEq .nil) .none⟩

/-- A context resolving every id to `bodySpanEq`. -/
def cxSpanEq : LateContext := ⟨fun _ => Option.some 0, fun _ => Option.some bodySpanEq⟩

/-- C1, counterexample: the lower bound is not inclusive.  The single
statement's span starts exactly at the call's position (both are
`(10, 20)`), the target occurs in it, yet `is_used_later` answers
`false`, because the source compares with the strict `stmt.span >
call_span` and equal spans fail that test. -/
theorem c1_boundary_counterexample :
    stmtSpanEq.span.lo = (⟨10, 20, 0⟩ : Span).lo ∧
      usage_found_in_stmt 5 stmtSpanEq = true ∧
      is_used_later cxSpanEq 5 ⟨10, 20, 0⟩ = Option.some false :=
  ⟨rfl, rfl, rfl⟩

/-- C1, amended: a statement is included in the search iff its span is
strictly greater than the call span in the span order (lexicographic on
start, end, context) — so a statement starting exactly at the call's
position is searched only when its span compares strictly greater,
e.g. when its end offset exceeds the call's; whenever a statement's
span is strictly greater than the call span and the target occurs in
it, `is_used_later` returns `true`. -/
theorem c1_boundary_amended (cx : LateContext) (t : Nat) (cs : Span)
    (bid : Nat) (b : Body) (s : Stmt)
    (h1 : cx.enclosing_body_owner t = Option.some bid)
    (h2 : cx.body bid = Option.some b)
    (hm : StmtList.memb s b.value.stmts)
    (hg : Span.gt s.span cs = true)
    (hc : stmtContains t s = true) :
    is_used_later cx t cs = Option.some true :=
  used_later_of_after_stmt cx t cs bid b s h1 h2 hm hg hc

/-- A statement starting exactly at the call position but extending
further, so its span is strictly greater than the call span. -/
def stmtSameStart : Stmt := .mk 1 ⟨10, 25, 0⟩ (.semi (.mk 5 ⟨12, 20, 0⟩ .lit))

/-- A body consisting of `stmtSameStart` only. -/
def bodySameStart : Body := ⟨.mk (.cons stmtSameStart .nil) .none⟩

/-- A context resolving every id to `bodySameStart`. -/
def cxSameStart : LateContext :=
  ⟨fun _ => Option.some 0, fun _ => Option.some bodySameStart⟩

/-- C1, witness: the amended boundary at a concrete input — the
statement starts exactly at the call's position (offset 10) but its
span `(10, 25)` is strictly greater than the call span `(10, 20)`, the
target occurs in it, and the query returns `true`. -/
theorem c1_boundary_witness :
    is_used_later cxSameStart 5 ⟨10, 20, 0⟩ = Option.some true :=
  c1_boundary_amended cxSameStart 5 ⟨10, 20, 0⟩ 0 bodySameStart stmtSameStart
    rfl rfl (Or.inl rfl) rfl rfl

/-- A path expression with own HIR id 7 whose resolution is the local
binding 5: a reference to binding 5 in the spec's sense. -/
def refToBinding5 : Expr := .mk 7 ⟨0, 1, 0⟩ (.path (.local 5))

/-- C2, counterexample: the walker's match rule is not the resolved-
identity rule.  `refToBinding5` is a reference-to-a-binding expression
node whose resolved identity equals the target 5 (`specMatchExpr`, the
spec's match rule, reports a match), yet the visitor reports no match,
because the source compares `expr.hir_id == self.hir_id` — the node's
own id, 7 here — and never consults the resolution. -/
theorem c2_match_rule_counterexample :
    specMatchExpr 5 refToBinding5 = true ∧
      (visit_expr ⟨5, false⟩ refToBinding5).found = false :=
  ⟨rfl, rfl⟩

/-- C2, amended: the walker reports a match iff the subtree contains an
expression node whose own HIR id equals the target id, regardless of
the node's kind and without consulting path resolutions. -/
theorem c2_match_rule_amended (t : Nat) (e : Expr) :
    (visit_expr ⟨t, false⟩ e).found = true ↔ exprContains t e = true := by
  simp [visit_expr_spec t false e]

/-- A context whose body lookup fails: the source's `.unwrap()` on
`cx.tcx.hir().body(body_id)` panics on this input. -/
def cxBodyLookupFails : LateContext :=
  ⟨fun _ => Option.some 0, fun _ => Option.none⟩

/-- C3, counterexample: an unresolvable body is not handled.  When the
body lookup fails, `is_used_later` does not return a "no enclosing
body" outcome: it panics (the `.unwrap()` in the source; `none` models
that panic), so the query does crash on such input. -/
theorem c3_no_body_counterexample :
    is_used_later cxBodyLookupFails 0 ⟨0, 0, 0⟩ = Option.none :=
  rfl

/-- C3, amended: when no enclosing body can be resolved for the binding
identity — rustc aborts inside `enclosing_body_owner`, or the body
lookup fails and the source's `.unwrap()` panics — `is_used_later`
panics rather than returning an outcome; the failure is treated as a
precondition violation, not handled. -/
theorem c3_no_body_amended (cx : LateContext) (t : Nat) (cs : Span)
    (h : cx.enclosing_body_owner t = Option.none ∨
      ∃ bid, cx.enclosing_body_owner t = Option.some bid ∧
        cx.body bid = Option.none) :
    is_used_later cx t cs = Option.none := by
  cases h with
  | inl h0 => simp [is_used_later, h0]
  | inr h0 =>
    obtain ⟨bid, h1, h2⟩ := h0
    simp [is_used_later, h1, h2]

/-- A context in which no enclosing body owner exists for any id. -/
def cxNoOwner : LateContext := ⟨fun _ => Option.none, fun _ => Option.none⟩

/-- C3, witness: the amended behaviour at a concrete input — with no
enclosing body owner, the query ends in the modelled panic. -/
theorem c3_no_body_witness : is_used_later cxNoOwner 0 ⟨0, 0, 0⟩ = Option.none :=
  c3_no_body_amended cxNoOwner 0 ⟨0, 0, 0⟩ (Or.inl rfl)

/-- A closure body whose only content is a reference (in the spec's
resolved-identity sense) to binding 5. -/
def closureBodyRef5 : BodyValue :=
  .mk .nil (.some (.mk 30 ⟨22, 23, 0⟩ (.path (.local 5))))

/-- A lexically later `let`-statement defining a closure whose body
references binding 5. -/
def stmtLaterClosure : Stmt :=
  .mk 20 ⟨20, 30, 0⟩ (.letStmt (.some (.mk 21 ⟨24, 29, 0⟩ (.closure closureBodyRef5))))

/-- A body consisting of `stmtLaterClosure` only. -/
def bodyLaterClosure : Body := ⟨.mk (.cons stmtLaterClosure .nil) .none⟩

/-- A context resolving every id to `bodyLaterClosure`. -/
def cxLaterClosure : LateContext :=
  ⟨fun _ => Option.some 0, fun _ => Option.some bodyLaterClosure⟩

/-- C4, counterexample: the walker does descend into the closure, but a
reference to the target binding inside a lexically later closure does
not make `is_used_later` return `true`: the closure statement at span
`(20, 30)` is strictly after the call span `(4, 9)` and its body holds
a reference resolving to binding 5 (the spec's match rule fires), yet
the query answers `false`, because references are matched by own node
id, never by resolved identity. -/
theorem c4_closure_counterexample :
    specMatchStmt 5 stmtLaterClosure = true ∧
      Span.gt stmtLaterClosure.span ⟨4, 9, 0⟩ = true ∧
      is_used_later cxLaterClosure 5 ⟨4, 9, 0⟩ = Option.some false :=
  ⟨rfl, rfl, rfl⟩

/-- C4, amended: the walker does descend into nested closure bodies
(`NestedFilter = OnlyBodies`): if a lexically later `let`-statement
defines a closure and an expression node carrying the target HIR id
occurs inside the closure's body — even only there — then
`is_used_later` returns `true`. -/
theorem c4_closure_amended (cx : LateContext) (t : Nat) (cs : Span)
    (bid : Nat) (b : Body) (s : Stmt) (eid : Nat) (esp : Span) (cb : BodyValue)
    (h1 : cx.enclosing_body_owner t = Option.some bid)
    (h2 : cx.body bid = Option.some b)
    (hm : StmtList.memb s b.value.stmts)
    (hk : s.kind = .letStmt (.some (.mk eid esp (.closure cb))))
    (hg : Span.gt s.span cs = true)
    (hc : bodyValueContains t cb = true) :
    is_used_later cx t cs = Option.some true := by
  have hcs : stmtContains t s = true := by
    cases s with
    | mk sid ssp sk =>
      simp only [Stmt.kind] at hk
      subst hk
      simp [stmtContains, stmtKindContains, optionContains, exprContains,
        kindContains, hc]
  exact used_later_of_after_stmt cx t cs bid b s h1 h2 hm hg hcs

/-- A closure body whose trailing expression carries the target id 5. -/
def closureBodyUse : BodyValue :=
  .mk .nil (.some (.mk 5 ⟨22, 23, 0⟩ (.path (.local 99))))

/-- The statement `let x = v;` of the nested-scope test. -/
def stmtLetX : Stmt := .mk 10 ⟨0, 8, 0⟩ (.letStmt (.some (.mk 11 ⟨6, 7, 0⟩ .lit)))

/-- The statement `let c = || use(x);` of the nested-scope test,
lexically after the call position. -/
def stmtLetClosure : Stmt :=
  .mk 20 ⟨10, 26, 0⟩ (.letStmt (.some (.mk 21 ⟨14, 25, 0⟩ (.closure closureBodyUse))))

/-- The statement `c();` of the nested-scope test. -/
def stmtCallC : Stmt :=
  .mk 40 ⟨28, 32, 0⟩
    (.semi (.mk 41 ⟨28, 31, 0⟩ (.call (.mk 42 ⟨28, 29, 0⟩ (.path .other)) .nil)))

/-- The body `let x = v; let c = || use(x); c();`. -/
def bodyClosureUse : Body :=
  ⟨.mk (.cons stmtLetX (.cons stmtLetClosure (.cons stmtCallC .nil))) .none⟩

/-- A context resolving every id to `bodyClosureUse`. -/
def cxClosureUse : LateContext :=
  ⟨fun _ => Option.some 0, fun _ => Option.some bodyClosureUse⟩

/-- C4, witness: the nested-scope test shape — the target occurs only
inside the body of the lexically later closure, the call position is
before the closure definition, and the query returns `true` because
the walker descends into the nested body. -/
theorem c4_closure_witness :
    is_used_later cxClosureUse 5 ⟨6, 7, 0⟩ = Option.some true :=
  c4_closure_amended cxClosureUse 5 ⟨6, 7, 0⟩ 0 bodyClosureUse stmtLetClosure
    21 ⟨14, 25, 0⟩ closureBodyUse rfl rfl (Or.inr (Or.inl rfl)) rfl rfl rfl

/-- C5: disabling early exit never changes the result.  The
short-circuiting query (each visit returns as soon as `found` is set,
and the loop returns at the first matching fragment) computes the same
answer as `is_used_later_noearly`, which traverses every fragment in
full and disjoins the per-fragment results. -/
theorem c5_early_exit_equivalence (cx : LateContext) (t : Nat) (cs : Span) :
    is_used_later cx t cs = is_used_later_noearly cx t cs := by
  cases hb : cx.enclosing_body_owner t with
  | none => simp [is_used_later, is_used_later_noearly, hb]
  | some bid =>
    cases hb2 : cx.body bid with
    | none => simp [is_used_later, is_used_later_noearly, hb, hb2]
    | some b =>
      simp [is_used_later, is_used_later_noearly, hb, hb2,
        is_used_later_of_body_full]

/-- C6: no look-back.  If every statement of the resolved body that
contains the target has a span not strictly greater than the call span,
and likewise for the trailing expression, then `is_used_later` returns
`false`: occurrences that lexically precede the call position never by
themselves produce `true`. -/
theorem c6_no_lookback (cx : LateContext) (t : Nat) (cs : Span)
    (bid : Nat) (b : Body)
    (h1 : cx.enclosing_body_owner t = Option.some bid)
    (h2 : cx.body bid = Option.some b)
    (hs : ∀ s : Stmt, StmtList.memb s b.value.stmts →
      stmtContains t s = true → Span.gt s.span cs = false)
    (ht : ∀ e : Expr, b.value.expr = OptionExpr.some e →
      exprContains t e = true → Span.gt e.span cs = false) :
    is_used_later cx t cs = Option.some false := by
  simp only [is_used_later, h1, h2, is_used_later_of_body_full,
    is_used_later_full, anyStmtAfter_none t cs b.value.stmts hs,
    Bool.false_or]
  cases hbe : b.value.expr with
  | none => simp [tailAfter]
  | some e =>
    by_cases hc : exprContains t e = true
    · simp [tailAfter, ht e hbe hc]
    · simp [tailAfter, hc]

/-- An early statement (span `(0, 10)`, before the call span `(4, 9)`
in the span order) containing the target node with own HIR id 5. -/
def stmtEarlyUse : Stmt :=
  .mk 10 ⟨0, 10, 0⟩ (.letStmt (.some (.mk 5 ⟨8, 9, 0⟩ .lit)))

/-- A later statement (span `(12, 20)`) not containing the target. -/
def stmtNoUse : Stmt :=
  .mk 11 ⟨12, 20, 0⟩ (.semi (.mk 12 ⟨12, 19, 0⟩ .lit))

/-- A body whose only occurrence of the target is in `stmtEarlyUse`. -/
def bodyEarlyUse : Body :=
  ⟨.mk (.cons stmtEarlyUse (.cons stmtNoUse .nil)) .none⟩

/-- A context resolving every id to `bodyEarlyUse`. -/
def cxEarlyUse : LateContext :=
  ⟨fun _ => Option.some 0, fun _ => Option.some bodyEarlyUse⟩

/-- C6, witness: the only occurrence of the target precedes the call
span, and the query answers `false`. -/
theorem c6_no_lookback_witness :
    is_used_later cxEarlyUse 5 ⟨4, 9, 0⟩ = Option.some false :=
  c6_no_lookback cxEarlyUse 5 ⟨4, 9, 0⟩ 0 bodyEarlyUse rfl rfl
    (by
      intro s hm hc
      rcases hm with h | h | h
      · subst h; rfl
      · subst h; exact absurd hc (by decide)
      · cases h)
    (by intro e he; cases he)

/-- A trailing expression whose span equals the call span and whose own
HIR id is the target 5. -/
def tailSpanEq : Expr := .mk 5 ⟨3, 9, 0⟩ .lit

/-- A body with no statements whose trailing expression is
`tailSpanEq`. -/
def bodyTailSpanEq : Body := ⟨.mk .nil (.some tailSpanEq)⟩

/-- A context resolving every id to `bodyTailSpanEq`. -/
def cxTailSpanEq : LateContext :=
  ⟨fun _ => Option.some 0, fun _ => Option.some bodyTailSpanEq⟩

/-- C7, counterexample: the trailing-expression bound is not "at or
after".  The body has no statements, its only occurrence of the target
is the trailing expression, and that expression's span starts exactly
at the call's position (both spans are `(3, 9)`) — yet the query
answers `false`, because the source requires the strict
`expr.span > call_span` and equal spans fail it. -/
theorem c7_tail_counterexample :
    exprContains 5 tailSpanEq = true ∧
      tailSpanEq.span.lo = (⟨3, 9, 0⟩ : Span).lo ∧
      is_used_later cxTailSpanEq 5 ⟨3, 9, 0⟩ = Option.some false :=
  ⟨rfl, rfl, rfl⟩

/-- C7, amended: if no statement of the resolved body contains the
target, the body has a trailing expression whose span is strictly
greater than the call span (rather than merely starting at or after the
call's position), and the target occurs in that trailing expression,
then `is_used_later` examines the trailing expression and returns
`true`. -/
theorem c7_tail_amended (cx : LateContext) (t : Nat) (cs : Span)
    (bid : Nat) (b : Body) (e : Expr)
    (h1 : cx.enclosing_body_owner t = Option.some bid)
    (h2 : cx.body bid = Option.some b)
    (hs : ∀ s : Stmt, StmtList.memb s b.value.stmts → stmtContains t s = false)
    (he : b.value.expr = OptionExpr.some e)
    (hg : Span.gt e.span cs = true)
    (hc : exprContains t e = true) :
    is_used_later cx t cs = Option.some true := by
  simp [is_used_later, h1, h2, is_used_later_of_body_full, is_used_later_full,
    he, tailAfter, hg, hc]

/-- A statement `let y = f(x)` in which no node carries the target id
5. -/
def stmtLetCall : Stmt :=
  .mk 10 ⟨0, 13, 0⟩
    (.letStmt (.some (.mk 11 ⟨8, 12, 0⟩
      (.call (.mk 12 ⟨8, 9, 0⟩ (.path .other)) (.cons (.mk 13 ⟨10, 11, 0⟩ (.path (.local 99))) .nil)))))

/-- A trailing expression carrying the target id 5, strictly after the
call span. -/
def tailUse : Expr := .mk 5 ⟨14, 15, 0⟩ (.path (.local 99))

/-- The body `let y = f(x); x`: one statement, then the trailing use. -/
def bodyTailUse : Body := ⟨.mk (.cons stmtLetCall .nil) (.some tailUse)⟩

/-- A context resolving every id to `bodyTailUse`. -/
def cxTailUse : LateContext :=
  ⟨fun _ => Option.some 0, fun _ => Option.some bodyTailUse⟩

/-- C7, witness: the `let y = f(x); x` shape — the only occurrence of
the target is the trailing expression, its span `(14, 15)` is strictly
greater than the call span `(8, 12)`, and the query returns `true`. -/
theorem c7_tail_witness :
    is_used_later cxTailUse 5 ⟨8, 12, 0⟩ = Option.some true :=
  c7_tail_amended cxTailUse 5 ⟨8, 12, 0⟩ 0 bodyTailUse tailUse rfl rfl
    (by
      intro s hm
      rcases hm with h | h
      · subst h; rfl
      · cases h)
    rfl rfl rfl

/-- C8: the query is a pure, read-only predicate.  Its result is a
function of the resolved body and the (target, position) pair alone:
two contexts that resolve the target to the same body give the same
answer on every invocation, and the traversal never alters the target
the visitor carries (the borrowed tree is never part of the mutable
state at all — only the `found` flag is). -/
theorem c8_pure_deterministic (cx cx' : LateContext) (t : Nat) (cs : Span)
    (v : UsageVisitor) (e : Expr)
    (h1 : cx.enclosing_body_owner t = cx'.enclosing_body_owner t)
    (h2 : ∀ bid, cx.enclosing_body_owner t = Option.some bid →
      cx.body bid = cx'.body bid) :
    is_used_later cx t cs = is_used_later cx' t cs ∧
      (visit_expr v e).hir_id = v.hir_id := by
  constructor
  · cases hb : cx.enclosing_body_owner t with
    | none =>
      have hb2 : cx'.enclosing_body_owner t = Option.none := by
        rw [← h1]; exact hb
      simp [is_used_later, hb, hb2]
    | some bid =>
      have hb2 : cx'.enclosing_body_owner t = Option.some bid := by
        rw [← h1]; exact hb
      have h3 := h2 bid hb
      cases hcb : cx.body bid with
      | none =>
        have hcb2 : cx'.body bid = Option.none := by rw [← h3]; exact hcb
        simp [is_used_later, hb, hb2, hcb, hcb2]
      | some b =>
        have hcb2 : cx'.body bid = Option.some b := by rw [← h3]; exact hcb
        simp [is_used_later, hb, hb2, hcb, hcb2]
  · cases v with
    | mk tid tf => simp [visit_expr_spec tid tf e]

/-- A context agreeing with `cxTailUse` on the resolution of id 5 but
differing elsewhere. -/
def cxTailUseVariant : LateContext :=
  ⟨fun i => Option.some (if i = 5 then 0 else 1),
   fun j => if j = 0 then Option.some bodyTailUse else Option.none⟩

/-- C8, witness: two concrete contexts that resolve the target to the
same body produce the same result, and a concrete visit leaves the
target id unchanged. -/
theorem c8_pure_deterministic_witness :
    is_used_later cxTailUse 5 ⟨8, 12, 0⟩ =
        is_used_later cxTailUseVariant 5 ⟨8, 12, 0⟩ ∧
      (visit_expr ⟨5, false⟩ tailUse).hir_id = 5 :=
  c8_pure_deterministic cxTailUse cxTailUseVariant 5 ⟨8, 12, 0⟩ ⟨5, false⟩
    tailUse rfl (fun bid hb => by
      cases hb
      rfl)

/-- C9: the `found` flag is monotone and reuse is harmless.  A visit
that starts with `found` already set returns the state unchanged (for
statements and expressions alike), a set flag is never reset by a
later visit, and the query that reuses one visitor across fragments
(`is_used_later_of_body`, as `is_used_later` does) equals the variant
allocating a fresh visitor per fragment (`is_used_later_fresh`, as
`usage_found_in` does). -/
theorem c9_found_monotone_reuse (v : UsageVisitor) (e : Expr) (s : Stmt)
    (b : Body) (t : Nat) (cs : Span) :
    (v.found = true → visit_expr v e = v ∧ visit_stmt v s = v) ∧
      (v.found = true → (visit_expr v e).found = true) ∧
      is_used_later_of_body b t cs = is_used_later_fresh b t cs := by
  cases v with
  | mk tid tf =>
    refine ⟨?_, ?_, ?_⟩
    · intro hf
      simp only at hf
      subst hf
      exact ⟨by simp [visit_expr_spec], by simp [visit_stmt_spec]⟩
    · intro hf
      simp only at hf
      subst hf
      simp [visit_expr_spec]
    · rw [is_used_later_of_body_full, is_used_later_fresh_full]

/-- C9, witness: at a concrete saturated state the visit is the
identity, and the reused-visitor query agrees with the fresh-visitor
query on a concrete body. -/
theorem c9_found_monotone_reuse_witness :
    visit_expr ⟨5, true⟩ tailSpanEq = ⟨5, true⟩ ∧
      is_used_later_of_body bodyTailUse 5 ⟨8, 12, 0⟩ =
        is_used_later_fresh bodyTailUse 5 ⟨8, 12, 0⟩ :=
  ⟨((c9_found_monotone_reuse ⟨5, true⟩ tailSpanEq stmtNoUse bodyTailUse 5
      ⟨8, 12, 0⟩).1 rfl).1,
   (c9_found_monotone_reuse ⟨5, true⟩ tailSpanEq stmtNoUse bodyTailUse 5
      ⟨8, 12, 0⟩).2.2⟩

/-- C10: a resolved body with no statements and no trailing expression
makes `is_used_later` return `false`. -/
theorem c10_empty_body (cx : LateContext) (t : Nat) (cs : Span) (bid : Nat)
    (h1 : cx.enclosing_body_owner t = Option.some bid)
    (h2 : cx.body bid = Option.some ⟨.mk .nil .none⟩) :
    is_used_later cx t cs = Option.some false := by
  simp only [is_used_later, h1, h2]
  rfl

/-- A context resolving every id to the empty body. -/
def cxEmptyBody : LateContext :=
  ⟨fun _ => Option.some 3, fun _ => Option.some ⟨.mk .nil .none⟩⟩

/-- C10, witness: the empty-body case at a concrete input. -/
theorem c10_empty_body_witness :
    is_used_later cxEmptyBody 7 ⟨1, 2, 0⟩ = Option.some false :=
  c10_empty_body cxEmptyBody 7 ⟨1, 2, 0⟩ 3 rfl rfl

end UsageCheck
